import Mathlib

/-!
Verification of the session message protocol and interruption-healing state
machine of `computer_use_demo/streamlit.py`.

The Python module is shallowly embedded: the ambient `st.session_state` becomes
an explicit `SessionState` record threaded through the functions, Python dicts
become insertion-ordered association lists (`dictSet` / `dictGet?` mirror
`d[k] = v` and `d[k]`), and code that can raise returns `Except PyError`.
-/

set_option autoImplicit false

namespace StreamlitDemo

/-- The fixed interruption marker appended after healing
(`INTERRUPT_TEXT` in the source). -/
def INTERRUPT_TEXT : String := "(user stopped or interrupted and wrote the following)"

/-- The sentinel error text recorded for an abandoned tool call
(`INTERRUPT_TOOL_ERROR` in the source). -/
def INTERRUPT_TOOL_ERROR : String := "human stopped or interrupted tool execution"

/-- Message roles (`class Sender(StrEnum)` in the source). -/
inductive Sender where
  | user
  | bot
  | tool
deriving DecidableEq

/-- A content block: a Python dict tagged by its `type` field.  The constructor
`other ty` stands for a dict whose `type` is a tag outside the built-in set
(`ty` is that tag); the claims only use it with tags outside
`text / thinking / tool_use / tool_result`. -/
inductive ContentBlock where
  | text (text : String)
  | thinking (thinking : String)
  | toolUse (id : String) (name : String) (input : String)
  | toolResult (tool_use_id : String) (content : String) (is_error : Bool)
  | other (ty : String)
deriving DecidableEq

/-- The `type` tag of a content block, as the Python code reads `block["type"]`. -/
def blockType : ContentBlock → String
  | .text _ => "text"
  | .thinking _ => "thinking"
  | .toolUse _ _ _ => "tool_use"
  | .toolResult _ _ _ => "tool_result"
  | .other ty => ty

/-- A conversation turn (`{"role": ..., "content": [...]}`). -/
structure Message where
  role : Sender
  content : List ContentBlock
deriving DecidableEq

/-- Modelled from the spec: the `ToolResult` record imported from
`computer_use_demo.tools` is not under `src/`; the spec describes it as
`ToolOutcome { error, output, image }` with an outcome subtype that selects
code-style rendering (`CLIResult` in the rendering code).  A field holding
`none` is an absent (`None`) attribute; `some ""` is an empty string, which is
falsy in Python. -/
structure ToolResult where
  output : Option String
  error : Option String
  base64_image : Option String
  isCLI : Bool
deriving DecidableEq

/-- Python truthiness of an optional string: `None` and `""` are falsy. -/
def pyTruthy : Option String → Bool
  | none => false
  | some s => !(s == "")

/-- Modelled from the spec: truthiness of the outcome record (`not message` in
the rendering code) — the record is truthy when any of its displayed fields is. -/
def ToolResult.pyBool (r : ToolResult) : Bool :=
  pyTruthy r.output || pyTruthy r.error || pyTruthy r.base64_image

/-- The sentinel outcome `ToolResult(error=INTERRUPT_TOOL_ERROR)` recorded by
the healer. -/
def interruptOutcome : ToolResult :=
  ⟨none, some INTERRUPT_TOOL_ERROR, none, false⟩

/-- One recorded API exchange: `(request, response-or-None)`
(the value stored in `st.session_state.responses`). -/
structure ApiExchange where
  request : String
  response : Option String
deriving DecidableEq

/-- A Python exception surfaced by the embedded code. -/
inductive PyError where
  | indexError
  | keyError
  | dispatchDefect (ty : String)
deriving DecidableEq

/-- The keys of an insertion-ordered dict, in iteration order. -/
def dictKeys {α : Type} (d : List (String × α)) : List String :=
  d.map Prod.fst

/-- `d[k] = v` on a Python dict: update in place if the key exists
(keeping its original position), otherwise append at the end. -/
def dictSet {α : Type} (d : List (String × α)) (k : String) (v : α) :
    List (String × α) :=
  if (dictKeys d).contains k then
    d.map (fun p => if p.1 == k then (k, v) else p)
  else d ++ [(k, v)]

/-- `d.get(k)` on a Python dict: the value at the first matching key. -/
def dictGet? {α : Type} (d : List (String × α)) (k : String) : Option α :=
  (d.find? (fun p => p.1 == k)).map Prod.snd

/-- The ambient `st.session_state`, restricted to the fields the core
protocol touches. -/
structure SessionState where
  messages : List Message
  tools : List (String × ToolResult)
  responses : List (String × ApiExchange)
  in_sampling_loop : Bool
  hide_images : Bool
  transcript : String
deriving DecidableEq

/-- `previous_tool_use_ids` as computed inside `maybe_add_interruption_blocks`:
`[block["id"] for block in last_message["content"] if block["type"] == "tool_use"]`. -/
def previous_tool_use_ids (content : List ContentBlock) : List String :=
  (content.filter (fun b => blockType b == "tool_use")).filterMap
    (fun b => match b with
      | .toolUse id _ _ => some id
      | _ => none)

/-- `maybe_add_interruption_blocks` from the source.  Returns the healing
blocks together with the updated session state (the loop writes
`st.session_state.tools[tool_use_id] = ToolResult(error=INTERRUPT_TOOL_ERROR)`
for every id it visits).  `st.session_state.messages[-1]` on an empty history
raises `IndexError`. -/
def maybe_add_interruption_blocks (s : SessionState) :
    Except PyError (List ContentBlock × SessionState) :=
  if s.in_sampling_loop = false then Except.ok ([], s)
  else
    match s.messages.getLast? with
    | none => Except.error PyError.indexError
    | some last_message =>
      let ids := previous_tool_use_ids last_message.content
      let acc := ids.foldl
        (fun (acc : List ContentBlock × List (String × ToolResult)) tool_use_id =>
          (acc.1 ++ [ContentBlock.toolResult tool_use_id INTERRUPT_TOOL_ERROR true],
           dictSet acc.2 tool_use_id interruptOutcome))
        ([], s.tools)
      Except.ok (acc.1 ++ [ContentBlock.text INTERRUPT_TEXT],
        { s with tools := acc.2 })

/-- `track_sampling_loop` from the source: a context manager with no
`try/finally` around its `yield`.  The run body (the `with` block) returns the
session state it left behind together with `none` on normal completion or
`some e` when it raised exception `e`; a raised exception is thrown back into
the generator at the `yield`, so the line resetting the flag never runs and the
exception propagates with the state as the body left it. -/
def track_sampling_loop (body : SessionState → SessionState × Option String)
    (s : SessionState) : SessionState × Option String :=
  match body { s with in_sampling_loop := true } with
  | (s2, none) => ({ s2 with in_sampling_loop := false }, none)
  | (s2, some e) => (s2, some e)

/-- The value passed to `_render_message`: a string, a content-block dict, or a
raw tool outcome (`str | BetaContentBlockParam | ToolResult` in the source). -/
inductive MsgVal where
  | str (s : String)
  | block (b : ContentBlock)
  | toolRes (r : ToolResult)
deriving DecidableEq

/-- Python truthiness of a `_render_message` argument (`not message`): an empty
string is falsy, a block dict always holds its `type` field and is truthy, and
the outcome record delegates to its own truthiness. -/
def MsgVal.pyBool : MsgVal → Bool
  | .str s => !(s == "")
  | .block _ => true
  | .toolRes r => r.pyBool

/-- One presentation action issued by the rendering code (one `st.*` call). -/
inductive RenderAction where
  | write (s : String)
  | markdown (s : String)
  | code (s : String)
  | errorBox (s : String)
  | image (b64 : String)
  | apiResponse (request : String) (response : Option String) (response_id : String)
deriving DecidableEq

/-- `_render_message` from the source, returning the list of presentation
actions it issues.  The early return fires when `not message`, or when the
value is a tool outcome, images are hidden, and the record has neither an
`error` nor an `output` attribute — the outcome record always has both
attributes (they are dataclass fields, present even when `None`), so for it the
guard reduces to `not message`.  An unrecognized dict tag raises
`Exception(...)`, embedded as `PyError.dispatchDefect`. -/
def _render_message (hide_images : Bool) (_sender : Sender) (message : MsgVal) :
    Except PyError (List RenderAction) :=
  if message.pyBool = false then Except.ok []
  else
    match message with
    | .toolRes r =>
      Except.ok
        ((if pyTruthy r.output then
            [(if r.isCLI then RenderAction.code else RenderAction.markdown)
              (r.output.getD "")]
          else [])
         ++ (if pyTruthy r.error then [RenderAction.errorBox (r.error.getD "")] else [])
         ++ (if pyTruthy r.base64_image && !hide_images then
              [RenderAction.image (r.base64_image.getD "")]
            else []))
    | .block b =>
      match b with
      | .text t => Except.ok [RenderAction.write t]
      | .thinking t => Except.ok [RenderAction.markdown ("[Thinking]\n\n" ++ t)]
      | .toolUse _ name input =>
        Except.ok [RenderAction.code ("Tool Use: " ++ name ++ "\nInput: " ++ input)]
      | .toolResult _ _ _ => Except.error (PyError.dispatchDefect "tool_result")
      | .other ty => Except.error (PyError.dispatchDefect ty)
    | .str s => Except.ok [RenderAction.markdown s]

/-- `_render_message` reads `st.session_state.hide_images` but writes nothing
to the session state; this wrapper makes that explicit by pairing the unchanged
state with the render outcome. -/
def render_block_step (s : SessionState) (sender : Sender) (m : MsgVal) :
    SessionState × Except PyError (List RenderAction) :=
  (s, _render_message s.hide_images sender m)

/-- One iteration of the history-display loop in `main` over a block of a
non-user message: a `tool_result` block is rendered via the tool-outcome log
(`st.session_state.tools[block["tool_use_id"]]`, raising `KeyError` when the
id has no recorded outcome); every other block goes to `_render_message`
directly. -/
def display_history_block (s : SessionState) (role : Sender) (b : ContentBlock) :
    Except PyError (List RenderAction) :=
  match b with
  | .toolResult tool_use_id _ _ =>
    match dictGet? s.tools tool_use_id with
    | none => Except.error PyError.keyError
    | some outcome => _render_message s.hide_images Sender.tool (MsgVal.toolRes outcome)
  | _ => _render_message s.hide_images role (MsgVal.block b)

/-- `_tool_output_callback` from the source: store the outcome under its id,
then render it. -/
def _tool_output_callback (hide_images : Bool) (tool_output : ToolResult)
    (tool_id : String) (tool_state : List (String × ToolResult)) :
    List (String × ToolResult) × Except PyError (List RenderAction) :=
  (dictSet tool_state tool_id tool_output,
   _render_message hide_images Sender.tool (MsgVal.toolRes tool_output))

/-- `_api_response_callback` from the source: store the `(request, response)`
pair under a fresh timestamp key (`datetime.now().isoformat()`, supplied here
as `response_id`), then render the error if one is present, then render the
exchange. -/
def _api_response_callback (request : String) (response : Option String)
    (error : Option String) (response_id : String)
    (response_state : List (String × ApiExchange)) :
    List (String × ApiExchange) × List RenderAction :=
  (dictSet response_state response_id ⟨request, response⟩,
   (match error with
    | some e => [RenderAction.errorBox e]
    | none => [])
   ++ [RenderAction.apiResponse request response response_id])

/-- The run-trigger test at the bottom of `main`: an agent run starts exactly
when the history is non-empty and its most recent message has the user role. -/
def run_trigger (s : SessionState) : Bool :=
  match s.messages.getLast? with
  | some m => m.role == Sender.user
  | none => false

/-- The voice-input action in `main` (lines 469-480): given a truthy
transcript, store it and append one user message whose content is the healing
blocks followed by the transcript text. -/
def voice_transcript_action (transcript : String) (s : SessionState) :
    Except PyError SessionState :=
  if (transcript == "") = false then
    let s1 := { s with transcript := transcript }
    match maybe_add_interruption_blocks s1 with
    | Except.error e => Except.error e
    | Except.ok (blocks, s2) =>
      Except.ok { s2 with
        messages := s2.messages ++
          [⟨Sender.user, blocks ++ [ContentBlock.text transcript]⟩] }
  else Except.ok s

/-- Python whitespace for `str.strip()` (the characters relevant here). -/
def pyIsSpace (c : Char) : Bool :=
  c == ' ' || c == '\t' || c == '\n' || c == '\r'

/-- `text_input.strip()`: drop leading and trailing whitespace. -/
def pyStrip (s : String) : String :=
  String.mk (((s.data.dropWhile pyIsSpace).reverse.dropWhile pyIsSpace).reverse)

/-- The Send-button action in `main` (lines 492-513): for a non-blank input it
appends a user message (healing blocks then the text), stores the transcript,
and then appends a second such user message — the append block is duplicated
in the source, and the healer runs again for the second append. -/
def send_button_action (text_input : String) (s : SessionState) :
    Except PyError SessionState :=
  if (pyStrip text_input == "") = false then
    match maybe_add_interruption_blocks s with
    | Except.error e => Except.error e
    | Except.ok (blocks1, s1) =>
      let s2 := { s1 with
        messages := s1.messages ++
          [⟨Sender.user, blocks1 ++ [ContentBlock.text text_input]⟩],
        transcript := text_input }
      match maybe_add_interruption_blocks s2 with
      | Except.error e => Except.error e
      | Except.ok (blocks2, s3) =>
        Except.ok { s3 with
          messages := s3.messages ++
            [⟨Sender.user, blocks2 ++ [ContentBlock.text text_input]⟩] }
  else Except.ok s

/-- A concrete idle session state (no run in progress) with non-trivial
history and logs, used in witnesses. -/
def idleState : SessionState :=
  ⟨[⟨Sender.bot, [ContentBlock.text "hello"]⟩],
   [("t0", ⟨some "out", none, none, false⟩)],
   [("2025-01-01T00:00:00", ⟨"POST /v1/messages", some "ok"⟩)],
   false, false, ""⟩

/-- A concrete interrupted session state: run in progress, last assistant
message holding three tool-use blocks t1, t2, t3, and an outcome already
recorded for t1 only. -/
def interruptedState : SessionState :=
  ⟨[⟨Sender.bot,
      [ContentBlock.text "working",
       ContentBlock.toolUse "t1" "computer" "a",
       ContentBlock.toolUse "t2" "computer" "b",
       ContentBlock.toolUse "t3" "computer" "c"]⟩],
   [("t1", ⟨some "done", none, none, false⟩)],
   [], true, false, ""⟩

/-- The blocks `maybe_add_interruption_blocks` actually emits at
`interruptedState`: one synthetic result per tool-use id of the last message
(t1 included), then the marker. -/
def c1ActualBlocks : List ContentBlock :=
  [ContentBlock.toolResult "t1" INTERRUPT_TOOL_ERROR true,
   ContentBlock.toolResult "t2" INTERRUPT_TOOL_ERROR true,
   ContentBlock.toolResult "t3" INTERRUPT_TOOL_ERROR true,
   ContentBlock.text INTERRUPT_TEXT]

/-- The session state `maybe_add_interruption_blocks` actually leaves behind at
`interruptedState`: the sentinel outcome recorded under all three ids,
overwriting the outcome previously recorded for t1. -/
def c1ActualState : SessionState :=
  { interruptedState with tools :=
      [("t1", interruptOutcome), ("t2", interruptOutcome),
       ("t3", interruptOutcome)] }

theorem dictKeys_cons {α : Type} (p : String × α) (t : List (String × α)) :
    dictKeys (p :: t) = p.1 :: dictKeys t := rfl

theorem dictKeys_append {α : Type} (d e : List (String × α)) :
    dictKeys (d ++ e) = dictKeys d ++ dictKeys e := by
  simp [dictKeys]

theorem not_mem_of_contains_eq_false {l : List String} {k : String}
    (h : l.contains k = false) : k ∉ l := by
  intro hm
  have h2 : l.contains k = true := List.elem_iff.mpr hm
  rw [h] at h2
  exact Bool.false_ne_true h2

theorem contains_eq_true_of_mem {l : List String} {k : String} (h : k ∈ l) :
    l.contains k = true := List.elem_iff.mpr h

theorem fst_mem_dictKeys {α : Type} {d : List (String × α)} {x : String × α}
    (hx : x ∈ d) : x.1 ∈ dictKeys d := List.mem_map.mpr ⟨x, hx, rfl⟩

theorem map_set_of_not_contains {α : Type} (k : String) (v : α)
    (d : List (String × α)) (h : (dictKeys d).contains k = false) :
    List.map (fun p => if p.1 == k then (k, v) else p) d = d := by
  induction d with
  | nil => rfl
  | cons p t ih =>
    rw [dictKeys_cons, List.contains_cons, Bool.or_eq_false_iff,
      beq_eq_false_iff_ne] at h
    have hp : ¬ ((p.1 == k) = true) := by
      rw [beq_iff_eq]
      exact fun e => h.1 e.symm
    rw [List.map_cons, if_neg hp, ih h.2]

theorem dictKeys_map_set {α : Type} (k : String) (v : α) (d : List (String × α)) :
    dictKeys (List.map (fun p => if p.1 == k then (k, v) else p) d) = dictKeys d := by
  induction d with
  | nil => rfl
  | cons p t ih =>
    by_cases hp : p.1 = k
    · rw [List.map_cons, if_pos (beq_iff_eq.mpr hp), dictKeys_cons,
        dictKeys_cons, ih, hp]
    · rw [List.map_cons, if_neg (fun e => hp (beq_iff_eq.mp e)), dictKeys_cons,
        dictKeys_cons, ih]

/-- The key set after `d[k] = v`: unchanged if `k` was present, otherwise `k`
is appended at the end of the iteration order. -/
theorem dictKeys_dictSet {α : Type} (d : List (String × α)) (k : String) (v : α) :
    dictKeys (dictSet d k v) =
      if (dictKeys d).contains k then dictKeys d else dictKeys d ++ [k] := by
  unfold dictSet
  by_cases h : (dictKeys d).contains k = true
  · rw [if_pos h, if_pos h, dictKeys_map_set]
  · rw [if_neg h, if_neg h, dictKeys_append]
    rfl

theorem find?_key_cons_pos {α : Type} (p : String × α) (t : List (String × α))
    (k : String) (h : (p.1 == k) = true) :
    List.find? (fun q => q.1 == k) (p :: t) = some p :=
  @List.find?_cons_of_pos _ (fun q => q.1 == k) p t h

theorem find?_key_cons_neg {α : Type} (p : String × α) (t : List (String × α))
    (k : String) (h : (p.1 == k) = false) :
    List.find? (fun q => q.1 == k) (p :: t) = List.find? (fun q => q.1 == k) t :=
  @List.find?_cons_of_neg _ (fun q => q.1 == k) p t
    (fun hc => Bool.false_ne_true (h.symm.trans hc))

theorem dictGet?_cons_pos {α : Type} (p : String × α) (t : List (String × α))
    (k : String) (h : (p.1 == k) = true) : dictGet? (p :: t) k = some p.2 := by
  unfold dictGet?
  rw [find?_key_cons_pos p t k h]
  rfl

theorem dictGet?_cons_neg {α : Type} (p : String × α) (t : List (String × α))
    (k : String) (h : (p.1 == k) = false) : dictGet? (p :: t) k = dictGet? t k := by
  unfold dictGet?
  rw [find?_key_cons_neg p t k h]

theorem filter_key_cons_pos {α : Type} (p : String × α) (t : List (String × α))
    (k : String) (h : (p.1 == k) = true) :
    List.filter (fun q => q.1 == k) (p :: t) = p :: List.filter (fun q => q.1 == k) t :=
  @List.filter_cons_of_pos _ (fun q => q.1 == k) p t h

theorem filter_key_cons_neg {α : Type} (p : String × α) (t : List (String × α))
    (k : String) (h : (p.1 == k) = false) :
    List.filter (fun q => q.1 == k) (p :: t) = List.filter (fun q => q.1 == k) t :=
  @List.filter_cons_of_neg _ (fun q => q.1 == k) p t
    (fun hc => Bool.false_ne_true (h.symm.trans hc))

theorem filter_eq_nil_of_not_contains {α : Type} (k : String)
    (d : List (String × α)) (h : (dictKeys d).contains k = false) :
    d.filter (fun q => q.1 == k) = [] := by
  rw [List.filter_eq_nil_iff]
  intro x hx hxk
  exact not_mem_of_contains_eq_false h (eq_of_beq hxk ▸ fst_mem_dictKeys hx)

theorem dictGet?_map_set_self {α : Type} (k : String) (v : α)
    (d : List (String × α)) (h : (dictKeys d).contains k = true) :
    dictGet? (List.map (fun p => if p.1 == k then (k, v) else p) d) k = some v := by
  induction d with
  | nil => exact absurd h (by rw [Bool.not_eq_true]; rfl)
  | cons p t ih =>
    by_cases hp : p.1 = k
    · rw [List.map_cons, if_pos (beq_iff_eq.mpr hp)]
      rw [dictGet?_cons_pos (k, v) _ k (beq_self_eq_true k)]
    · have htc : (dictKeys t).contains k = true := by
        rw [dictKeys_cons, List.contains_cons, Bool.or_eq_true_iff] at h
        rcases h with h1 | h2
        · exact absurd (eq_of_beq h1).symm hp
        · exact h2
      rw [List.map_cons, if_neg (fun e => hp (beq_iff_eq.mp e))]
      rw [dictGet?_cons_neg p _ k (beq_eq_false_iff_ne.mpr hp)]
      exact ih htc

/-- Reading back the key just written returns the value just written. -/
theorem dictGet?_dictSet_self {α : Type} (d : List (String × α)) (k : String)
    (v : α) : dictGet? (dictSet d k v) k = some v := by
  unfold dictSet
  by_cases h : (dictKeys d).contains k = true
  · rw [if_pos h]
    exact dictGet?_map_set_self k v d h
  · rw [if_neg h]
    rw [Bool.not_eq_true] at h
    unfold dictGet?
    rw [List.find?_append]
    have hnone : List.find? (fun p => p.1 == k) d = none := by
      rw [List.find?_eq_none]
      intro x hx hxk
      exact not_mem_of_contains_eq_false h (eq_of_beq hxk ▸ fst_mem_dictKeys hx)
    rw [hnone, Option.none_or, find?_key_cons_pos (k, v) [] k (beq_self_eq_true k)]
    rfl

theorem dictGet?_map_set_ne {α : Type} (k j : String) (v : α) (h : j ≠ k)
    (d : List (String × α)) :
    dictGet? (List.map (fun p => if p.1 == k then (k, v) else p) d) j
      = dictGet? d j := by
  induction d with
  | nil => rfl
  | cons p t ih =>
    by_cases hp : p.1 = k
    · rw [List.map_cons, if_pos (beq_iff_eq.mpr hp)]
      rw [dictGet?_cons_neg (k, v) _ j (beq_eq_false_iff_ne.mpr (Ne.symm h)),
        dictGet?_cons_neg p t j
          (beq_eq_false_iff_ne.mpr (fun e => Ne.symm h (hp.symm.trans e)))]
      exact ih
    · by_cases hj : p.1 = j
      · rw [List.map_cons, if_neg (fun e => hp (beq_iff_eq.mp e))]
        rw [dictGet?_cons_pos p _ j (beq_iff_eq.mpr hj),
          dictGet?_cons_pos p t j (beq_iff_eq.mpr hj)]
      · rw [List.map_cons, if_neg (fun e => hp (beq_iff_eq.mp e))]
        rw [dictGet?_cons_neg p _ j (beq_eq_false_iff_ne.mpr hj),
          dictGet?_cons_neg p t j (beq_eq_false_iff_ne.mpr hj)]
        exact ih

/-- Writing key `k` does not change the value read at any other key `j`. -/
theorem dictGet?_dictSet_ne {α : Type} (d : List (String × α)) (k j : String)
    (v : α) (h : j ≠ k) : dictGet? (dictSet d k v) j = dictGet? d j := by
  unfold dictSet
  by_cases hc : (dictKeys d).contains k = true
  · rw [if_pos hc]
    exact dictGet?_map_set_ne k j v h d
  · rw [if_neg hc]
    unfold dictGet?
    rw [List.find?_append]
    have hlast : List.find? (fun p => p.1 == j) [(k, v)] = none := by
      rw [List.find?_eq_none]
      intro x hx hxj
      rcases List.mem_singleton.mp hx with rfl
      exact h (eq_of_beq hxj).symm
    rw [hlast, Option.or_none]

/-- Recording never removes an entry: any key readable before `d[k] = v` is
still readable after it. -/
theorem dictGet?_dictSet_preserves {α : Type} (d : List (String × α))
    (k j : String) (v : α) (h : dictGet? d j ≠ none) :
    dictGet? (dictSet d k v) j ≠ none := by
  by_cases hjk : j = k
  · subst hjk
    rw [dictGet?_dictSet_self]
    exact fun c => Option.noConfusion c
  · rw [dictGet?_dictSet_ne d k j v hjk]
    exact h

theorem filter_map_set_eq {α : Type} (k : String) (v : α) (d : List (String × α))
    (hc : (dictKeys d).contains k = true) (h : (dictKeys d).Nodup) :
    (List.map (fun p => if p.1 == k then (k, v) else p) d).filter
      (fun q => q.1 == k) = [(k, v)] := by
  induction d with
  | nil => exact absurd hc (by rw [Bool.not_eq_true]; rfl)
  | cons p t ih =>
    rw [dictKeys_cons, List.nodup_cons] at h
    by_cases hp : p.1 = k
    · rw [List.map_cons, if_pos (beq_iff_eq.mpr hp)]
      rw [filter_key_cons_pos (k, v) _ k (beq_self_eq_true k)]
      have htc : (dictKeys t).contains k = false := by
        cases hb : (dictKeys t).contains k
        · rfl
        · exact absurd (show p.1 ∈ dictKeys t by rw [hp]; exact List.elem_iff.mp hb) h.1
      rw [map_set_of_not_contains k v t htc, filter_eq_nil_of_not_contains k t htc]
    · have htc : (dictKeys t).contains k = true := by
        rw [dictKeys_cons, List.contains_cons, Bool.or_eq_true_iff] at hc
        rcases hc with h1 | h2
        · exact absurd (eq_of_beq h1).symm hp
        · exact h2
      rw [List.map_cons, if_neg (fun e => hp (beq_iff_eq.mp e))]
      rw [filter_key_cons_neg p _ k (beq_eq_false_iff_ne.mpr hp)]
      exact ih htc h.2

/-- With unique keys, `d[k] = v` leaves exactly the single entry `(k, v)`
under key `k`. -/
theorem filter_dictSet_eq {α : Type} (d : List (String × α)) (k : String) (v : α)
    (h : (dictKeys d).Nodup) :
    (dictSet d k v).filter (fun q => q.1 == k) = [(k, v)] := by
  unfold dictSet
  by_cases hc : (dictKeys d).contains k = true
  · rw [if_pos hc]
    exact filter_map_set_eq k v d hc h
  · rw [if_neg hc]
    rw [Bool.not_eq_true] at hc
    rw [List.filter_append, filter_eq_nil_of_not_contains k d hc, List.nil_append,
      filter_key_cons_pos (k, v) [] k (beq_self_eq_true k), List.filter_nil]

/-- `d[k] = v` keeps the key set duplicate-free. -/
theorem nodup_dictKeys_dictSet {α : Type} (d : List (String × α)) (k : String)
    (v : α) (h : (dictKeys d).Nodup) : (dictKeys (dictSet d k v)).Nodup := by
  rw [dictKeys_dictSet]
  by_cases hc : (dictKeys d).contains k = true
  · rw [if_pos hc]
    exact h
  · rw [if_neg hc]
    rw [Bool.not_eq_true] at hc
    rw [List.nodup_append]
    refine ⟨h, List.nodup_singleton k, ?_⟩
    intro a ha hak
    rcases List.mem_singleton.mp hak with rfl
    exact not_mem_of_contains_eq_false hc ha

theorem contains_dictKeys_dictSet_self {α : Type} (d : List (String × α))
    (k : String) (v : α) : (dictKeys (dictSet d k v)).contains k = true := by
  rw [dictKeys_dictSet]
  by_cases hc : (dictKeys d).contains k = true
  · rw [if_pos hc]
    exact hc
  · rw [if_neg hc]
    exact contains_eq_true_of_mem (List.mem_append_right _ (List.mem_singleton.mpr rfl))

/-- The healer only writes the tool-outcome log: the state it returns agrees
with its input on every other field. -/
theorem maybe_add_interruption_blocks_state (s : SessionState)
    (r : List ContentBlock) (s2 : SessionState)
    (h : maybe_add_interruption_blocks s = Except.ok (r, s2)) :
    s2 = { s with tools := s2.tools } := by
  unfold maybe_add_interruption_blocks at h
  by_cases hf : s.in_sampling_loop = false
  · rw [if_pos hf] at h
    cases h
    rfl
  · rw [if_neg hf] at h
    cases hl : s.messages.getLast? with
    | none =>
      rw [hl] at h
      cases h
    | some m =>
      rw [hl] at h
      cases h
      rfl

/-- Claim C9: for every session state in which the run-in-progress flag is
false, `heal` returns the empty sequence of content blocks (and leaves the
state untouched), whatever the turn history and logs contain. -/
theorem C9_heal_idle_returns_empty (s : SessionState)
    (h : s.in_sampling_loop = false) :
    maybe_add_interruption_blocks s = Except.ok ([], s) := by
  unfold maybe_add_interruption_blocks
  rw [if_pos h]

theorem C9_heal_idle_returns_empty_witness :
    maybe_add_interruption_blocks idleState = Except.ok ([], idleState) :=
  C9_heal_idle_returns_empty idleState rfl

/-- Claim C3 (code bug): with the run-in-progress flag true and an empty turn
history, `heal` indexes `messages[-1]` on the empty list and raises
`IndexError` instead of short-circuiting to the empty sequence. -/
theorem C3_heal_empty_history_raises :
    maybe_add_interruption_blocks ⟨[], [], [], true, false, ""⟩ =
      Except.error PyError.indexError := rfl

/-- Claim C10: displaying a `ToolResult` block whose `tool_use_id` has no
entry in the tool-outcome log fails with a key-lookup error — the lookup is
unguarded, so a recorded outcome is a precondition of history rendering. -/
theorem C10_unrecorded_outcome_raises (s : SessionState) (role : Sender)
    (tool_use_id content : String) (is_error : Bool)
    (h : dictGet? s.tools tool_use_id = none) :
    display_history_block s role
      (ContentBlock.toolResult tool_use_id content is_error) =
      Except.error PyError.keyError := by
  simp only [display_history_block]
  rw [h]

theorem C10_unrecorded_outcome_raises_witness :
    display_history_block idleState Sender.bot
      (ContentBlock.toolResult "tX" "raw" true) =
      Except.error PyError.keyError :=
  C10_unrecorded_outcome_raises idleState Sender.bot "tX" "raw" true (by decide)

/-- Claim C6: dispatching a content block whose tag lies outside the closed
variant set fails with the dispatch-defect signal, and the failure leaves the
session state — in particular the tool-outcome log and the exchange log —
unchanged. -/
theorem C6_unknown_tag_dispatch_defect (s : SessionState) (sender : Sender)
    (b : ContentBlock)
    (h : blockType b ∉ ["text", "thinking", "tool_use", "tool_result"]) :
    render_block_step s sender (MsgVal.block b) =
      (s, Except.error (PyError.dispatchDefect (blockType b))) := by
  cases b with
  | text t => exact absurd (by simp [blockType]) h
  | thinking t => exact absurd (by simp [blockType]) h
  | toolUse i n inp => exact absurd (by simp [blockType]) h
  | toolResult i c ie => exact absurd (by simp [blockType]) h
  | other ty => rfl

theorem C6_unknown_tag_dispatch_defect_witness :
    render_block_step idleState Sender.bot
      (MsgVal.block (ContentBlock.other "server_tool_use")) =
      (idleState, Except.error (PyError.dispatchDefect "server_tool_use")) :=
  C6_unknown_tag_dispatch_defect idleState Sender.bot
    (ContentBlock.other "server_tool_use") (by decide)

/-- Claim C2 (counterexample): when the run body ends with an error,
`track_sampling_loop` returns with the run-in-progress flag still true — the
claim that the flag is false after control returns, completion or error alike,
fails on the code. -/
theorem C2_counterexample :
    (track_sampling_loop (fun s2 => (s2, some "RateLimitError")) idleState).1.in_sampling_loop
        = true ∧
    (track_sampling_loop (fun s2 => (s2, some "RateLimitError")) idleState).2
        = some "RateLimitError" :=
  ⟨rfl, rfl⟩

/-- Claim C2 (amended): the flag is set to true before the run body starts and
reset to false when the body completes normally; when the body ends with an
error, the call propagates the body's state and error unchanged, so the flag
keeps whatever value the body left — true, unless the body itself cleared
it — which is precisely the marker the healer later relies on. -/
theorem C2_amended_flag_lifecycle
    (body : SessionState → SessionState × Option String) (s : SessionState) :
    (∀ s2, body { s with in_sampling_loop := true } = (s2, none) →
      track_sampling_loop body s = ({ s2 with in_sampling_loop := false }, none)) ∧
    (∀ s2 e, body { s with in_sampling_loop := true } = (s2, some e) →
      track_sampling_loop body s = (s2, some e)) := by
  constructor
  · intro s2 h
    unfold track_sampling_loop
    rw [h]
  · intro s2 e h
    unfold track_sampling_loop
    rw [h]

theorem C2_amended_flag_lifecycle_witness :
    track_sampling_loop (fun s2 => (s2, none)) idleState =
      ({ { idleState with in_sampling_loop := true } with
          in_sampling_loop := false }, none) :=
  (C2_amended_flag_lifecycle (fun s2 => (s2, none)) idleState).1
    { idleState with in_sampling_loop := true } rfl

/-- Claim C7: displaying a `ToolResult` block whose id has a recorded outcome
renders the resolved outcome from the tool-outcome log — the block's raw
payload (`content`, `is_error`) does not influence the output — and renders
each present field exactly once, in the precedence output (code text for CLI
outcomes, plain text otherwise), then error, then image unless images are
hidden. -/
theorem C7_render_recorded_outcome (s : SessionState) (role : Sender)
    (tool_use_id content : String) (is_error : Bool) (r : ToolResult)
    (h : dictGet? s.tools tool_use_id = some r) :
    display_history_block s role
      (ContentBlock.toolResult tool_use_id content is_error) = Except.ok
      ((if pyTruthy r.output then
          [(if r.isCLI then RenderAction.code else RenderAction.markdown)
            (r.output.getD "")]
        else [])
       ++ (if pyTruthy r.error then [RenderAction.errorBox (r.error.getD "")] else [])
       ++ (if pyTruthy r.base64_image && !s.hide_images then
            [RenderAction.image (r.base64_image.getD "")]
          else [])) := by
  have key : display_history_block s role
      (ContentBlock.toolResult tool_use_id content is_error) =
      _render_message s.hide_images Sender.tool (MsgVal.toolRes r) := by
    simp only [display_history_block]
    rw [h]
  rw [key]
  unfold _render_message
  by_cases hb : (MsgVal.toolRes r).pyBool = false
  · rw [if_pos hb]
    have hb2 : ToolResult.pyBool r = false := hb
    unfold ToolResult.pyBool at hb2
    rw [Bool.or_eq_false_iff, Bool.or_eq_false_iff] at hb2
    rw [hb2.1.1, hb2.1.2, hb2.2]
    simp
  · rw [if_neg hb]

theorem C7_render_recorded_outcome_witness :
    dictGet? interruptedState.tools "t1" = some ⟨some "done", none, none, false⟩ ∧
    display_history_block interruptedState Sender.bot
      (ContentBlock.toolResult "t1" "raw" false) =
      Except.ok [RenderAction.markdown "done"] :=
  ⟨by decide,
   (C7_render_recorded_outcome interruptedState Sender.bot "t1" "raw" false
      ⟨some "done", none, none, false⟩ (by decide)).trans (by rfl)⟩

/-- Claim C8: every `recordApiExchange` invocation stores the exchange in the
exchange log whether or not an error is present, and when an error is present
the error-rendering action fires in addition to — not instead of — the normal
exchange render. -/
theorem C8_record_and_render (request : String) (response : Option String)
    (error : Option String) (response_id : String)
    (response_state : List (String × ApiExchange)) :
    dictGet? (_api_response_callback request response error response_id
        response_state).1 response_id = some ⟨request, response⟩ ∧
    (∀ e, error = some e →
      (_api_response_callback request response error response_id
          response_state).2 =
        [RenderAction.errorBox e,
         RenderAction.apiResponse request response response_id]) ∧
    (error = none →
      (_api_response_callback request response error response_id
          response_state).2 =
        [RenderAction.apiResponse request response response_id]) := by
  refine ⟨?_, ?_, ?_⟩
  · exact dictGet?_dictSet_self response_state response_id ⟨request, response⟩
  · intro e he
    subst he
    rfl
  · intro he
    subst he
    rfl

theorem C8_record_and_render_witness :
    dictGet? (_api_response_callback "POST /v1/messages" (some "200")
        (some "overloaded") "2025-02-02T00:00:00" []).1 "2025-02-02T00:00:00"
      = some ⟨"POST /v1/messages", some "200"⟩ ∧
    (_api_response_callback "POST /v1/messages" (some "200") (some "overloaded")
        "2025-02-02T00:00:00" []).2 =
      [RenderAction.errorBox "overloaded",
       RenderAction.apiResponse "POST /v1/messages" (some "200")
         "2025-02-02T00:00:00"] :=
  ⟨(C8_record_and_render "POST /v1/messages" (some "200") (some "overloaded")
      "2025-02-02T00:00:00" []).1,
   (C8_record_and_render "POST /v1/messages" (some "200") (some "overloaded")
      "2025-02-02T00:00:00" []).2.1 "overloaded" rfl⟩

/-- Claim C5: for both recorder operations, recording twice under the same key
leaves exactly one entry in the log holding the latest value, recording never
removes any entry, and the key iteration order is the first-insertion order
(unchanged if the key was present, otherwise the key joins at the end). -/
theorem C5_record_map_semantics (hide_images : Bool)
    (d : List (String × ToolResult)) (e : List (String × ApiExchange))
    (k rid : String) (v1 v2 : ToolResult) (req1 req2 : String)
    (resp1 resp2 : Option String) (err : Option String)
    (hd : (dictKeys d).Nodup) (he : (dictKeys e).Nodup) :
    ((_tool_output_callback hide_images v2 k
        (_tool_output_callback hide_images v1 k d).1).1.filter
          (fun q => q.1 == k) = [(k, v2)] ∧
      dictGet? (_tool_output_callback hide_images v2 k
        (_tool_output_callback hide_images v1 k d).1).1 k = some v2 ∧
      (∀ j, dictGet? d j ≠ none →
        dictGet? (_tool_output_callback hide_images v2 k
          (_tool_output_callback hide_images v1 k d).1).1 j ≠ none) ∧
      dictKeys (_tool_output_callback hide_images v2 k
          (_tool_output_callback hide_images v1 k d).1).1 =
        (if (dictKeys d).contains k then dictKeys d else dictKeys d ++ [k])) ∧
    ((_api_response_callback req2 resp2 err rid
        (_api_response_callback req1 resp1 err rid e).1).1.filter
          (fun q => q.1 == rid) = [(rid, ⟨req2, resp2⟩)] ∧
      dictGet? (_api_response_callback req2 resp2 err rid
        (_api_response_callback req1 resp1 err rid e).1).1 rid
          = some ⟨req2, resp2⟩ ∧
      (∀ j, dictGet? e j ≠ none →
        dictGet? (_api_response_callback req2 resp2 err rid
          (_api_response_callback req1 resp1 err rid e).1).1 j ≠ none) ∧
      dictKeys (_api_response_callback req2 resp2 err rid
          (_api_response_callback req1 resp1 err rid e).1).1 =
        (if (dictKeys e).contains rid then dictKeys e
         else dictKeys e ++ [rid])) := by
  refine ⟨⟨?_, ?_, ?_, ?_⟩, ⟨?_, ?_, ?_, ?_⟩⟩
  · exact filter_dictSet_eq (dictSet d k v1) k v2
      (nodup_dictKeys_dictSet d k v1 hd)
  · exact dictGet?_dictSet_self (dictSet d k v1) k v2
  · intro j hj
    exact dictGet?_dictSet_preserves (dictSet d k v1) k j v2
      (dictGet?_dictSet_preserves d k j v1 hj)
  · show dictKeys (dictSet (dictSet d k v1) k v2) = _
    rw [dictKeys_dictSet, if_pos (contains_dictKeys_dictSet_self d k v1),
      dictKeys_dictSet]
  · exact filter_dictSet_eq (dictSet e rid ⟨req1, resp1⟩) rid ⟨req2, resp2⟩
      (nodup_dictKeys_dictSet e rid ⟨req1, resp1⟩ he)
  · exact dictGet?_dictSet_self (dictSet e rid ⟨req1, resp1⟩) rid ⟨req2, resp2⟩
  · intro j hj
    exact dictGet?_dictSet_preserves (dictSet e rid ⟨req1, resp1⟩) rid j
      ⟨req2, resp2⟩ (dictGet?_dictSet_preserves e rid j ⟨req1, resp1⟩ hj)
  · show dictKeys (dictSet (dictSet e rid ⟨req1, resp1⟩) rid ⟨req2, resp2⟩) = _
    rw [dictKeys_dictSet, if_pos (contains_dictKeys_dictSet_self e rid ⟨req1, resp1⟩),
      dictKeys_dictSet]

theorem C5_record_map_semantics_witness :
    (_tool_output_callback false ⟨some "v2", none, none, false⟩ "t9"
        (_tool_output_callback false ⟨some "v1", none, none, false⟩ "t9"
          [("t0", ⟨some "old", none, none, false⟩)]).1).1.filter
      (fun q => q.1 == "t9") = [("t9", ⟨some "v2", none, none, false⟩)] ∧
    dictKeys (_api_response_callback "r2" (some "b") none "2025"
        (_api_response_callback "r1" (some "a") none "2025" []).1).1 = ["2025"] := by
  have h := C5_record_map_semantics false
    [("t0", ⟨some "old", none, none, false⟩)] [] "t9" "2025"
    ⟨some "v1", none, none, false⟩ ⟨some "v2", none, none, false⟩
    "r1" "r2" (some "a") (some "b") none (by decide) (by decide)
  exact ⟨h.1.1, (h.2.2.2.2).trans (by decide)⟩

/-- Unfolding of the healer in the active case: with the flag set and a last
message present, the result is the fold over that message's tool-use ids. -/
theorem maybe_add_interruption_blocks_active (s : SessionState) (m : Message)
    (hflag : s.in_sampling_loop = true)
    (hlast : s.messages.getLast? = some m) :
    maybe_add_interruption_blocks s = Except.ok
      (((previous_tool_use_ids m.content).foldl
          (fun (acc : List ContentBlock × List (String × ToolResult)) tool_use_id =>
            (acc.1 ++ [ContentBlock.toolResult tool_use_id INTERRUPT_TOOL_ERROR true],
             dictSet acc.2 tool_use_id interruptOutcome))
          ([], s.tools)).1 ++ [ContentBlock.text INTERRUPT_TEXT],
       { s with tools := ((previous_tool_use_ids m.content).foldl
          (fun (acc : List ContentBlock × List (String × ToolResult)) tool_use_id =>
            (acc.1 ++ [ContentBlock.toolResult tool_use_id INTERRUPT_TOOL_ERROR true],
             dictSet acc.2 tool_use_id interruptOutcome))
          ([], s.tools)).2 }) := by
  unfold maybe_add_interruption_blocks
  rw [if_neg (fun hf => Bool.noConfusion (hflag.symm.trans hf)), hlast]

/-- Claim C1 (counterexample): at a state whose last assistant message has
tool-use ids t1, t2, t3 and whose tool-outcome log already holds an entry for
t1 only, `heal` emits four blocks — a synthetic result for the already-matched
t1 as well, then t2, t3, then the marker — not the claimed two results plus
marker, and it overwrites the recorded outcome of t1 with the sentinel. -/
theorem C1_counterexample :
    maybe_add_interruption_blocks interruptedState =
      Except.ok (c1ActualBlocks, c1ActualState) ∧
    c1ActualBlocks.length = 4 ∧
    c1ActualBlocks ≠
      [ContentBlock.toolResult "t2" INTERRUPT_TOOL_ERROR true,
       ContentBlock.toolResult "t3" INTERRUPT_TOOL_ERROR true,
       ContentBlock.text INTERRUPT_TEXT] ∧
    dictGet? c1ActualState.tools "t1" = some interruptOutcome ∧
    dictGet? interruptedState.tools "t1" ≠ some interruptOutcome :=
  ⟨rfl, rfl, by decide, by decide, by decide⟩

/-- Claim C1 (amended): in that situation `heal` returns one synthetic
`ToolResult` for every `ToolUse` id of the last message — t1, t2 and t3, in
the order they appear — each `is_error=true` with the sentinel text, followed
by exactly one trailing `Text` interruption marker, and it records the
sentinel error outcome under all three ids, the already-matched t1 included
(overwriting its previous outcome). -/
theorem C1_amended_heal_all_ids (s : SessionState) (m : Message)
    (t1 t2 t3 : String) (r1 : ToolResult)
    (hflag : s.in_sampling_loop = true)
    (hlast : s.messages.getLast? = some m)
    (hids : previous_tool_use_ids m.content = [t1, t2, t3])
    (h1 : dictGet? s.tools t1 = some r1)
    (h2 : dictGet? s.tools t2 = none)
    (h3 : dictGet? s.tools t3 = none)
    (h12 : t1 ≠ t2) (h13 : t1 ≠ t3) (h23 : t2 ≠ t3) :
    maybe_add_interruption_blocks s = Except.ok
      ([ContentBlock.toolResult t1 INTERRUPT_TOOL_ERROR true,
        ContentBlock.toolResult t2 INTERRUPT_TOOL_ERROR true,
        ContentBlock.toolResult t3 INTERRUPT_TOOL_ERROR true,
        ContentBlock.text INTERRUPT_TEXT],
       { s with tools :=
          dictSet (dictSet (dictSet s.tools t1 interruptOutcome) t2
            interruptOutcome) t3 interruptOutcome }) ∧
    dictGet? (dictSet (dictSet (dictSet s.tools t1 interruptOutcome) t2
        interruptOutcome) t3 interruptOutcome) t1 = some interruptOutcome ∧
    dictGet? (dictSet (dictSet (dictSet s.tools t1 interruptOutcome) t2
        interruptOutcome) t3 interruptOutcome) t2 = some interruptOutcome ∧
    dictGet? (dictSet (dictSet (dictSet s.tools t1 interruptOutcome) t2
        interruptOutcome) t3 interruptOutcome) t3 = some interruptOutcome := by
  refine ⟨?_, ?_, ?_, ?_⟩
  · rw [maybe_add_interruption_blocks_active s m hflag hlast, hids]
    simp [List.foldl_cons, List.foldl_nil]
  · rw [dictGet?_dictSet_ne _ t3 t1 _ h13, dictGet?_dictSet_ne _ t2 t1 _ h12,
      dictGet?_dictSet_self]
  · rw [dictGet?_dictSet_ne _ t3 t2 _ h23, dictGet?_dictSet_self]
  · rw [dictGet?_dictSet_self]

theorem C1_amended_heal_all_ids_witness :
    maybe_add_interruption_blocks interruptedState = Except.ok
      ([ContentBlock.toolResult "t1" INTERRUPT_TOOL_ERROR true,
        ContentBlock.toolResult "t2" INTERRUPT_TOOL_ERROR true,
        ContentBlock.toolResult "t3" INTERRUPT_TOOL_ERROR true,
        ContentBlock.text INTERRUPT_TEXT],
       { interruptedState with
          tools := dictSet (dictSet (dictSet interruptedState.tools "t1"
            interruptOutcome) "t2" interruptOutcome) "t3" interruptOutcome }) ∧
    dictGet? (dictSet (dictSet (dictSet interruptedState.tools "t1"
        interruptOutcome) "t2" interruptOutcome) "t3" interruptOutcome) "t1"
      = some interruptOutcome ∧
    dictGet? (dictSet (dictSet (dictSet interruptedState.tools "t1"
        interruptOutcome) "t2" interruptOutcome) "t3" interruptOutcome) "t2"
      = some interruptOutcome ∧
    dictGet? (dictSet (dictSet (dictSet interruptedState.tools "t1"
        interruptOutcome) "t2" interruptOutcome) "t3" interruptOutcome) "t3"
      = some interruptOutcome :=
  C1_amended_heal_all_ids interruptedState
    ⟨Sender.bot,
      [ContentBlock.text "working",
       ContentBlock.toolUse "t1" "computer" "a",
       ContentBlock.toolUse "t2" "computer" "b",
       ContentBlock.toolUse "t3" "computer" "c"]⟩
    "t1" "t2" "t3" ⟨some "done", none, none, false⟩
    rfl rfl (by decide) (by decide) (by decide) (by decide)
    (by decide) (by decide) (by decide)

/-- Claim C4 (counterexample): one press of the Send button with the text
`hi` appends two user messages to the history, not exactly one — the append
block is duplicated in the source. -/
theorem C4_counterexample :
    send_button_action "hi" idleState = Except.ok { idleState with
      messages := idleState.messages ++
        [⟨Sender.user, [ContentBlock.text "hi"]⟩,
         ⟨Sender.user, [ContentBlock.text "hi"]⟩],
      transcript := "hi" } ∧
    (idleState.messages ++
        ([⟨Sender.user, [ContentBlock.text "hi"]⟩,
          ⟨Sender.user, [ContentBlock.text "hi"]⟩] : List Message)).length ≠
      idleState.messages.length + 1 :=
  ⟨rfl, by decide⟩

/-- Claim C4 (amended): a voice transcription appends exactly one user message
— the healing blocks followed by one `Text` block with the transcript; a press
of the Send button with non-blank text appends two such user messages (the
healer runs once per append), because the append block is duplicated in the
source.  In both cases the history afterwards ends with a user message, which
is exactly the condition under which the single agent run of the cycle
starts. -/
theorem C4_amended_user_actions (s : SessionState) (t : String) :
    ((t == "") = false →
      ∀ blocks s1, maybe_add_interruption_blocks { s with transcript := t } =
          Except.ok (blocks, s1) →
        voice_transcript_action t s = Except.ok { s1 with
          messages := s.messages ++
            [⟨Sender.user, blocks ++ [ContentBlock.text t]⟩] } ∧
        run_trigger { s1 with
          messages := s.messages ++
            [⟨Sender.user, blocks ++ [ContentBlock.text t]⟩] } = true) ∧
    ((pyStrip t == "") = false →
      ∀ blocks1 s1, maybe_add_interruption_blocks s = Except.ok (blocks1, s1) →
      ∀ blocks2 s3, maybe_add_interruption_blocks { s1 with
          messages := s1.messages ++
            [⟨Sender.user, blocks1 ++ [ContentBlock.text t]⟩],
          transcript := t } = Except.ok (blocks2, s3) →
        send_button_action t s = Except.ok { s3 with
          messages := s.messages ++
            [⟨Sender.user, blocks1 ++ [ContentBlock.text t]⟩,
             ⟨Sender.user, blocks2 ++ [ContentBlock.text t]⟩] } ∧
        run_trigger { s3 with
          messages := s.messages ++
            [⟨Sender.user, blocks1 ++ [ContentBlock.text t]⟩,
             ⟨Sender.user, blocks2 ++ [ContentBlock.text t]⟩] } = true) := by
  constructor
  · intro ht blocks s1 h1
    have hs1 : s1 = { { s with transcript := t } with tools := s1.tools } :=
      maybe_add_interruption_blocks_state _ _ _ h1
    have hm1 : s1.messages = s.messages := by rw [hs1]
    constructor
    · unfold voice_transcript_action
      rw [if_pos ht]
      simp only [h1]
      rw [hm1]
    · unfold run_trigger
      simp only [List.getLast?_concat]
      rfl
  · intro ht blocks1 s1 h1 blocks2 s3 h2
    have hs1 : s1 = { s with tools := s1.tools } :=
      maybe_add_interruption_blocks_state _ _ _ h1
    have hm1 : s1.messages = s.messages := by rw [hs1]
    have hm3 : s3.messages = s.messages ++
        [⟨Sender.user, blocks1 ++ [ContentBlock.text t]⟩] := by
      have hs3 := maybe_add_interruption_blocks_state _ _ _ h2
      rw [hs3]
      exact congrArg (fun l => l ++ _) hm1
    constructor
    · unfold send_button_action
      rw [if_pos ht]
      simp only [h1]
      simp only [h2]
      rw [hm3]
      simp [List.append_assoc]
    · unfold run_trigger
      rw [show s.messages ++
          [⟨Sender.user, blocks1 ++ [ContentBlock.text t]⟩,
           ⟨Sender.user, blocks2 ++ [ContentBlock.text t]⟩] =
          (s.messages ++ [⟨Sender.user, blocks1 ++ [ContentBlock.text t]⟩]) ++
            [⟨Sender.user, blocks2 ++ [ContentBlock.text t]⟩]
        from by simp [List.append_assoc]]
      simp only [List.getLast?_concat]
      rfl

theorem C4_amended_user_actions_witness :
    (voice_transcript_action "hi" idleState = Except.ok
      { { { idleState with transcript := "hi" } with
            tools := ({ idleState with transcript := "hi" } : SessionState).tools } with
        messages := idleState.messages ++
          [⟨Sender.user, [] ++ [ContentBlock.text "hi"]⟩] } ∧
     run_trigger { { { idleState with transcript := "hi" } with
            tools := ({ idleState with transcript := "hi" } : SessionState).tools } with
        messages := idleState.messages ++
          [⟨Sender.user, [] ++ [ContentBlock.text "hi"]⟩] } = true) ∧
    (send_button_action "hi" idleState = Except.ok
      { ({ idleState with
            messages := idleState.messages ++
              [⟨Sender.user, [] ++ [ContentBlock.text "hi"]⟩],
            transcript := "hi" } : SessionState) with
        messages := idleState.messages ++
          [⟨Sender.user, [] ++ [ContentBlock.text "hi"]⟩,
           ⟨Sender.user, [] ++ [ContentBlock.text "hi"]⟩] } ∧
     run_trigger { ({ idleState with
            messages := idleState.messages ++
              [⟨Sender.user, [] ++ [ContentBlock.text "hi"]⟩],
            transcript := "hi" } : SessionState) with
        messages := idleState.messages ++
          [⟨Sender.user, [] ++ [ContentBlock.text "hi"]⟩,
           ⟨Sender.user, [] ++ [ContentBlock.text "hi"]⟩] } = true) :=
  ⟨(C4_amended_user_actions idleState "hi").1 (by decide) []
      { idleState with transcript := "hi" } rfl,
   (C4_amended_user_actions idleState "hi").2 (by decide) [] idleState rfl []
      { idleState with
          messages := idleState.messages ++
            [⟨Sender.user, [] ++ [ContentBlock.text "hi"]⟩],
          transcript := "hi" } rfl⟩

end StreamlitDemo
